import Mathlib

/-!
Verification of the EPIC HVF core (pkg/experimental/epic/epic.go).

The Go source is shallowly embedded below.  Bytes are modelled as `Nat`
values below 256 (all byte-producing operations reduce modulo 256 or are
bitwise on byte-range inputs); machine integers are modelled as `Nat`/`Int`
with explicit reductions where Go's fixed-width arithmetic could wrap;
`time.Time` instants and `time.Duration` values are modelled as `Int`
nanoseconds; fallible functions return `Except Err`.

The AES block cipher and its CBC-encryption mode (Go's `crypto/aes` and
`crypto/cipher`, used by `initEpicMac`) are embedded executably following
FIPS-197: S-box table, key expansion for 16/24/32-byte keys, and the
round function.
-/

namespace Epic

/-! ### AES block cipher (crypto/aes), FIPS-197 -/

/-- The AES S-box (Go crypto/aes `sbox0`), row-major, 256 entries. -/
def sboxTable : List Nat :=
  [0x63, 0x7c, 0x77, 0x7b, 0xf2, 0x6b, 0x6f, 0xc5, 0x30, 0x01, 0x67, 0x2b, 0xfe, 0xd7, 0xab, 0x76,
   0xca, 0x82, 0xc9, 0x7d, 0xfa, 0x59, 0x47, 0xf0, 0xad, 0xd4, 0xa2, 0xaf, 0x9c, 0xa4, 0x72, 0xc0,
   0xb7, 0xfd, 0x93, 0x26, 0x36, 0x3f, 0xf7, 0xcc, 0x34, 0xa5, 0xe5, 0xf1, 0x71, 0xd8, 0x31, 0x15,
   0x04, 0xc7, 0x23, 0xc3, 0x18, 0x96, 0x05, 0x9a, 0x07, 0x12, 0x80, 0xe2, 0xeb, 0x27, 0xb2, 0x75,
   0x09, 0x83, 0x2c, 0x1a, 0x1b, 0x6e, 0x5a, 0xa0, 0x52, 0x3b, 0xd6, 0xb3, 0x29, 0xe3, 0x2f, 0x84,
   0x53, 0xd1, 0x00, 0xed, 0x20, 0xfc, 0xb1, 0x5b, 0x6a, 0xcb, 0xbe, 0x39, 0x4a, 0x4c, 0x58, 0xcf,
   0xd0, 0xef, 0xaa, 0xfb, 0x43, 0x4d, 0x33, 0x85, 0x45, 0xf9, 0x02, 0x7f, 0x50, 0x3c, 0x9f, 0xa8,
   0x51, 0xa3, 0x40, 0x8f, 0x92, 0x9d, 0x38, 0xf5, 0xbc, 0xb6, 0xda, 0x21, 0x10, 0xff, 0xf3, 0xd2,
   0xcd, 0x0c, 0x13, 0xec, 0x5f, 0x97, 0x44, 0x17, 0xc4, 0xa7, 0x7e, 0x3d, 0x64, 0x5d, 0x19, 0x73,
   0x60, 0x81, 0x4f, 0xdc, 0x22, 0x2a, 0x90, 0x88, 0x46, 0xee, 0xb8, 0x14, 0xde, 0x5e, 0x0b, 0xdb,
   0xe0, 0x32, 0x3a, 0x0a, 0x49, 0x06, 0x24, 0x5c, 0xc2, 0xd3, 0xac, 0x62, 0x91, 0x95, 0xe4, 0x79,
   0xe7, 0xc8, 0x37, 0x6d, 0x8d, 0xd5, 0x4e, 0xa9, 0x6c, 0x56, 0xf4, 0xea, 0x65, 0x7a, 0xae, 0x08,
   0xba, 0x78, 0x25, 0x2e, 0x1c, 0xa6, 0xb4, 0xc6, 0xe8, 0xdd, 0x74, 0x1f, 0x4b, 0xbd, 0x8b, 0x8a,
   0x70, 0x3e, 0xb5, 0x66, 0x48, 0x03, 0xf6, 0x0e, 0x61, 0x35, 0x57, 0xb9, 0x86, 0xc1, 0x1d, 0x9e,
   0xe1, 0xf8, 0x98, 0x11, 0x69, 0xd9, 0x8e, 0x94, 0x9b, 0x1e, 0x87, 0xe9, 0xce, 0x55, 0x28, 0xdf,
   0x8c, 0xa1, 0x89, 0x0d, 0xbf, 0xe6, 0x42, 0x68, 0x41, 0x99, 0x2d, 0x0f, 0xb0, 0x54, 0xbb, 0x16]

/-- S-box lookup on a byte. -/
def sbox (b : Nat) : Nat := sboxTable.getD b 0

/-- Multiplication by x in GF(2^8) modulo x^8 + x^4 + x^3 + x + 1. -/
def xtime (b : Nat) : Nat :=
  if b < 128 then 2 * b else (2 * b) % 256 ^^^ 0x1b

/-- Multiplication by 2 in GF(2^8). -/
def mul2 (b : Nat) : Nat := xtime b

/-- Multiplication by 3 in GF(2^8). -/
def mul3 (b : Nat) : Nat := xtime b ^^^ b

/-- Bytewise xor of two 16-byte blocks (missing entries read as 0). -/
def xor16 (a b : List Nat) : List Nat :=
  (List.range 16).map (fun i => a.getD i 0 ^^^ b.getD i 0)

/-- SubBytes: S-box applied to each state byte. -/
def subBytes (st : List Nat) : List Nat := st.map sbox

/-- ShiftRows on the flat, column-major state (state byte r + 4c at index r + 4c). -/
def shiftRows (st : List Nat) : List Nat :=
  ([0, 5, 10, 15, 4, 9, 14, 3, 8, 13, 2, 7, 12, 1, 6, 11] : List Nat).map
    (fun i => st.getD i 0)

/-- MixColumns on one column. -/
def mixOne (s0 s1 s2 s3 : Nat) : List Nat :=
  [mul2 s0 ^^^ mul3 s1 ^^^ s2 ^^^ s3,
   s0 ^^^ mul2 s1 ^^^ mul3 s2 ^^^ s3,
   s0 ^^^ s1 ^^^ mul2 s2 ^^^ mul3 s3,
   mul3 s0 ^^^ s1 ^^^ s2 ^^^ mul2 s3]

/-- MixColumns on the flat state. -/
def mixColumns (st : List Nat) : List Nat :=
  mixOne (st.getD 0 0) (st.getD 1 0) (st.getD 2 0) (st.getD 3 0) ++
  mixOne (st.getD 4 0) (st.getD 5 0) (st.getD 6 0) (st.getD 7 0) ++
  mixOne (st.getD 8 0) (st.getD 9 0) (st.getD 10 0) (st.getD 11 0) ++
  mixOne (st.getD 12 0) (st.getD 13 0) (st.getD 14 0) (st.getD 15 0)

/-- AES rounds, driven by the list of remaining round keys: all but the last
round apply SubBytes, ShiftRows, MixColumns, AddRoundKey; the final round
omits MixColumns. -/
def aesRounds : List (List Nat) → List Nat → List Nat
  | [], st => st
  | [rk], st => xor16 (shiftRows (subBytes st)) rk
  | rk :: rk' :: rks, st =>
      aesRounds (rk' :: rks) (xor16 (mixColumns (shiftRows (subBytes st))) rk)

/-- AES block encryption given the expanded round keys (initial AddRoundKey,
then the rounds). -/
def aesEncryptBlock (rks : List (List Nat)) (b : List Nat) : List Nat :=
  aesRounds rks.tail (xor16 b (rks.headD []))

/-- Round constants (Go crypto/aes `powx`). -/
def powx : List Nat :=
  [0x01, 0x02, 0x04, 0x08, 0x10, 0x20, 0x40, 0x80, 0x1b, 0x36, 0x6c, 0xd8,
   0xab, 0x4d, 0x9a, 0x2f]

/-- SubWord: S-box on each byte of a 4-byte word. -/
def subWord (w : List Nat) : List Nat := w.map sbox

/-- RotWord: rotate a 4-byte word left by one byte. -/
def rotWord (w : List Nat) : List Nat := w.drop 1 ++ w.take 1

/-- Bytewise xor of two 4-byte words. -/
def xorWord (a b : List Nat) : List Nat := List.zipWith (· ^^^ ·) a b

/-- Split a list into chunks of `n` elements (last chunk may be shorter). -/
def chunksOf (n : Nat) (l : List Nat) : List (List Nat) :=
  if h : l = [] ∨ n = 0 then [] else
    l.take n :: chunksOf n (l.drop n)
termination_by l.length
decreasing_by
  simp only [List.length_drop]
  rcases not_or.mp h with ⟨h1, h2⟩
  have hl : 0 < l.length := List.length_pos.mpr h1
  omega

/-- FIPS-197 key expansion loop (Go crypto/aes `expandKeyGo`): generate words
`i = nk, …, total-1`, where `w[i] = w[i-nk] ^ t` and `t` is `w[i-1]`, with
the SubWord/RotWord/round-constant transform at multiples of `nk` and the
extra SubWord for AES-256. -/
def expandLoop (nk total : Nat) (i : Nat) (w : List (List Nat)) : List (List Nat) :=
  if h : total ≤ i then w
  else
    let t := w.getD (i - 1) []
    let t :=
      if i % nk = 0 then xorWord (subWord (rotWord t)) [powx.getD (i / nk - 1) 0, 0, 0, 0]
      else if 6 < nk ∧ i % nk = 4 then subWord t
      else t
    expandLoop nk total (i + 1) (w ++ [xorWord (w.getD (i - nk) []) t])
termination_by total - i
decreasing_by omega

/-- Full key expansion: the raw key bytes as `nk` words, the expansion loop to
`4*(nr+1)` words, grouped into `nr+1` round keys of 16 bytes. -/
def expandKey (key : List Nat) : List (List Nat) :=
  let nk := key.length / 4
  let nr := nk + 6
  let w := expandLoop nk (4 * (nr + 1)) nk (chunksOf 4 key)
  chunksOf 16 w.flatten

/-- Go `aes.NewCipher`: accepts exactly 16-, 24- or 32-byte keys (AES-128,
AES-192, AES-256); any other length yields a key-size error.  The result is
modelled as the expanded round-key schedule. -/
def aesNewCipher (key : List Nat) : Option (List (List Nat)) :=
  if key.length = 16 ∨ key.length = 24 ∨ key.length = 32 then
    some (expandKey key)
  else none

/-- CBC encryption (crypto/cipher `NewCBCEncrypter` + `CryptBlocks`) on a list
of 16-byte blocks: each plaintext block is xored with the previous ciphertext
block (initially the IV) and encrypted. -/
def cbcEncryptChunks (rks : List (List Nat)) (iv : List Nat) :
    List (List Nat) → List (List Nat)
  | [] => []
  | b :: bs =>
      let c := aesEncryptBlock rks (xor16 iv b)
      c :: cbcEncryptChunks rks c bs

/-- CBC encryption of a block-aligned byte string. -/
def cryptBlocks (rks : List (List Nat)) (iv : List Nat) (data : List Nat) : List Nat :=
  (cbcEncryptChunks rks iv (chunksOf 16 data)).flatten

/-! ### Constants and data model of epic.go -/

/-- AuthLen denotes the size of the authenticator in bytes. -/
def AuthLen : Nat := 16

/-- MaxPacketLifetime (2 seconds), in nanoseconds. -/
def MaxPacketLifetime : Int := 2000000000

/-- MaxClockSkew (1 second), in nanoseconds. -/
def MaxClockSkew : Int := 1000000000

/-- TimestampResolution (21 microseconds), in nanoseconds. -/
def TimestampResolution : Int := 21000

/-- MACBufferSize denotes the buffer size of the CBC input and output. -/
def MACBufferSize : Nat := 48

/-- The all-zero initialization vector `zeroInitVector [16]byte`. -/
def zeroInitVector : List Nat := List.replicate 16 0

/-- Modelled from the spec: the EPIC packet identifier
(pkg/slayers/path/epic `PktID`, not under src/), a fixed-size binary value
with a 32-bit timestamp and a 32-bit counter, serialized to a fixed 8-byte
big-endian encoding. -/
structure PktID where
  timestamp : Nat
  counter : Nat
deriving DecidableEq

/-- Modelled from the spec: `epic.PktIDLen`, the fixed serialized length (8
bytes) of the packet identifier. -/
def PktIDLen : Nat := 8

/-- Modelled from the spec: `addr.IABytes`, the serialized length (8 bytes)
of the source endpoint identity. -/
def IABytes : Nat := 8

/-- Modelled from the spec: the subset of the SCION common/address header
(`slayers.SCION`, not under src/) read by this core: the source
address-length class (`SrcAddrLen`, a small enumerated value, one byte when
serialized), the raw source address bytes (`RawSrcAddr`), the 64-bit source
endpoint identity (`SrcIA`), and the 16-bit payload length (`PayloadLen`).
The absent (nil) header is modelled as `Option.none` at use sites. -/
structure SCION where
  SrcAddrLen : Nat
  RawSrcAddr : List Nat
  SrcIA : Nat
  PayloadLen : Nat
deriving DecidableEq

/-- Errors returned by the core (each `serrors.New` call site gets one
constructor; diagnostic payloads are kept where the spec mentions them). -/
inductive Err where
  | invalidTimestampOrder
  | timestampRangeExceeded
  | timestampInFuture (delta : Int)
  | timestampExpired (delta : Int)
  | missingHeader
  | keyInitError
  | invalidInput
  | macMismatch (hvf mac auth : List Nat)
deriving DecidableEq

/-- Big-endian 2-byte encoding (binary.BigEndian.PutUint16). -/
def be16 (v : Nat) : List Nat := [v / 2 ^ 8 % 256, v % 256]

/-- Big-endian 4-byte encoding (binary.BigEndian.PutUint32). -/
def be32 (v : Nat) : List Nat :=
  [v / 2 ^ 24 % 256, v / 2 ^ 16 % 256, v / 2 ^ 8 % 256, v % 256]

/-- Big-endian 8-byte encoding (binary.BigEndian.PutUint64). -/
def be64 (v : Nat) : List Nat :=
  [v / 2 ^ 56 % 256, v / 2 ^ 48 % 256, v / 2 ^ 40 % 256, v / 2 ^ 32 % 256,
   v / 2 ^ 24 % 256, v / 2 ^ 16 % 256, v / 2 ^ 8 % 256, v % 256]

/-- Modelled from the spec: `PktID.SerializeTo` writes the fixed 8-byte
encoding of the packet identifier (its two 32-bit words, big-endian). -/
def PktID.serializeTo (p : PktID) : List Nat := be32 p.timestamp ++ be32 p.counter

/-- Overwrite `buf[off : off + data.length]` with `data`.  This coincides
with a Go in-place slice write whenever `off + data.length ≤ buf.length`
(the only situation in which the Go code performs it without panicking). -/
def writeBytes (buf : List Nat) (off : Nat) (data : List Nat) : List Nat :=
  buf.take off ++ data ++ buf.drop (off + data.length)

/-! ### Operations of epic.go -/

/-- CreateTimestamp returns the epic timestamp, which encodes the current
time (now) relative to the input timestamp.  Instants are `Int` nanoseconds;
`input.After(now)` is `input > now`; Go's truncated `int64` division agrees
with `Int` division here because the dividend is non-negative on the path
where it is evaluated. -/
def CreateTimestamp (input now : Int) : Except Err Nat :=
  if input > now then .error .invalidTimestampOrder
  else
    let epicTS := (now - input) / TimestampResolution - 1
    let epicTS := if epicTS < 0 then 0 else epicTS
    if epicTS ≥ 2 ^ 32 then .error .timestampRangeExceeded
    else .ok epicTS.toNat

/-- VerifyTimestamp checks whether an EPIC packet is fresh.  `epicTS` is the
32-bit relative timestamp (a `Nat`); instants are `Int` nanoseconds.  The
`time.Duration` arithmetic cannot overflow for 32-bit `epicTS`. -/
def VerifyTimestamp (timestamp : Int) (epicTS : Nat) (now : Int) : Except Err Unit :=
  let diff := ((epicTS : Int) + 1) * TimestampResolution
  let tsSender := timestamp + diff
  if tsSender > now + MaxClockSkew then
    .error (.timestampInFuture (tsSender - (now + MaxClockSkew)))
  else if now > tsSender + MaxPacketLifetime + MaxClockSkew then
    .error (.timestampExpired (now - (tsSender + MaxPacketLifetime + MaxClockSkew)))
  else .ok ()

/-- initEpicMac: initialize the AES cipher from the key and wrap it in
CBC-encryption mode with the all-zero initialization vector.  The returned
mode is modelled by the expanded round-key schedule (the IV being the fixed
`zeroInitVector`, applied in `CalcMac`). -/
def initEpicMac (key : List Nat) : Except Err (List (List Nat)) :=
  match aesNewCipher key with
  | none => .error .keyInitError
  | some rks => .ok rks

/-- prepareMacInput assembles the MAC input in `inputBuffer`:
flags (1B) | timestamp (4B) | packet ID (8B) | srcIA (8B) |
srcAddr (4/8/12/16B) | payloadLen (2B) | zero padding to a 16-byte multiple.
`uint8(s.SrcAddrLen)` is `% 256`; `math.Ceil((23+l)/16)` is the exact
ceiling division for the relevant sizes; the two Go `copy` calls bound the
copied length by the destination slice length.  Returns the input length
together with the updated buffer. -/
def prepareMacInput (pktID : PktID) (s : Option SCION) (timestamp : Nat)
    (inputBuffer : List Nat) : Except Err (Nat × List Nat) :=
  match s with
  | none => .error .missingHeader
  | some s =>
    let srcAddr := s.RawSrcAddr
    let l := srcAddr.length
    let nrBlocks := (23 + l + 15) / 16
    let inputLength := 16 * nrBlocks
    let b0 := writeBytes inputBuffer 0 [s.SrcAddrLen % 256]
    let b1 := writeBytes b0 1 (be32 timestamp)
    let b2 := writeBytes b1 5 pktID.serializeTo
    let b3 := writeBytes b2 13 (be64 (s.SrcIA % 2 ^ 64))
    let b4 := writeBytes b3 21 (srcAddr.take (b3.length - 21))
    let b5 := writeBytes b4 (21 + l) (be16 (s.PayloadLen % 2 ^ 16))
    let b6 := writeBytes b5 (23 + l) (zeroInitVector.take (inputLength - (23 + l)))
    .ok (inputLength, b6)

/-- CalcMac derives the EPIC MAC: a fresh zeroed buffer replaces an
undersized one, the cipher is initialized, the input is prepared, the
buffer's input-length portion is CBC-encrypted in place, and the first 4
bytes of the last ciphertext block are returned. -/
def CalcMac (auth : List Nat) (pktID : PktID) (s : Option SCION) (timestamp : Nat)
    (buffer : List Nat) : Except Err (List Nat) :=
  let buffer := if buffer.length < MACBufferSize then List.replicate MACBufferSize 0 else buffer
  match initEpicMac auth with
  | .error e => .error e
  | .ok rks =>
    match prepareMacInput pktID s timestamp buffer with
    | .error e => .error e
    | .ok (inputLength, buf) =>
      let input := buf.take inputLength
      let out := cryptBlocks rks zeroInitVector input
      .ok ((out.drop (out.length - 16)).take 4)

/-- Go `subtle.ConstantTimeCompare`: 1 iff the two byte slices have equal
length and contents, 0 otherwise (the timing property itself is not part of
the functional model). -/
def ConstantTimeCompare (x y : List Nat) : Nat :=
  if x.length ≠ y.length then 0
  else if x = y then 1 else 0

/-- VerifyHVF verifies the HVF by recalculating and comparing it. -/
def VerifyHVF (auth : List Nat) (pktID : PktID) (s : Option SCION) (timestamp : Nat)
    (hvf : List Nat) (buffer : List Nat) : Except Err Unit :=
  if s = none ∨ auth.length ≠ AuthLen then .error .invalidInput
  else
    match CalcMac auth pktID s timestamp buffer with
    | .error e => .error e
    | .ok mac =>
      if ConstantTimeCompare hvf mac = 0 then .error (.macMismatch hvf mac auth)
      else .ok ()

/-- PktCounterFromCore creates a counter for the packet identifier based on
the core ID (uint8, modelled as `% 256`) and the core counter (uint32); the
result is a uint32 (`% 2^32`). -/
def PktCounterFromCore (coreID : Nat) (coreCounter : Nat) : Nat :=
  ((coreID % 256) <<< 24 ||| coreCounter &&& 0xFFFFFF) % 2 ^ 32

/-- CoreFromPktCounter reads the core ID and the core counter from a packet
identifier counter (uint32, modelled as `% 2^32`). -/
def CoreFromPktCounter (counter : Nat) : Nat × Nat :=
  ((counter % 2 ^ 32) >>> 24 % 256, (counter % 2 ^ 32) &&& 0xFFFFFF)

/-! ### Specification-side definitions (from the spec's words, for the
refinement claims about the MAC input layout and the CBC-MAC construction) -/

/-- Spec 4.3 layout: 1 byte address-length class, 4 bytes relative
timestamp, 8 bytes packet identifier, 8 bytes source endpoint identity, the
raw source address, 2 bytes payload length, and zero padding up to
`16 * ceil((23 + N) / 16)` bytes, all big-endian and contiguous. -/
def macInputSpec (pktID : PktID) (s : SCION) (timestamp : Nat) : List Nat :=
  let n := s.RawSrcAddr.length
  let total := 16 * ((23 + n + 15) / 16)
  [s.SrcAddrLen % 256] ++ be32 timestamp ++ pktID.serializeTo ++
    be64 (s.SrcIA % 2 ^ 64) ++ s.RawSrcAddr ++ be16 (s.PayloadLen % 2 ^ 16) ++
    List.replicate (total - (23 + n)) 0

/-- Spec 4.4: the authenticator is the first 4 bytes of the final ciphertext
block obtained by CBC-encrypting the block-aligned spec 4.3 encoding under
the key with an all-zero initialization vector. -/
def calcMacSpec (auth : List Nat) (pktID : PktID) (s : SCION) (timestamp : Nat) : List Nat :=
  let blocks := cbcEncryptChunks (expandKey auth) (List.replicate 16 0)
    (chunksOf 16 (macInputSpec pktID s timestamp))
  (blocks.getLastD []).take 4

/-! ### Helper lemmas -/

@[simp] lemma length_be16 (v : Nat) : (be16 v).length = 2 := rfl

@[simp] lemma length_be32 (v : Nat) : (be32 v).length = 4 := rfl

@[simp] lemma length_be64 (v : Nat) : (be64 v).length = 8 := rfl

@[simp] lemma length_serializeTo (p : PktID) : p.serializeTo.length = 8 := rfl

lemma writeBytes_append (P t d : List Nat) (o : Nat) (ho : P.length = o) :
    writeBytes (P ++ t) o d = (P ++ d) ++ t.drop d.length := by
  subst ho
  unfold writeBytes
  rw [List.take_left, ← List.drop_drop, List.drop_left]

lemma length_macInputSpec (pktID : PktID) (s : SCION) (ts : Nat) :
    (macInputSpec pktID s ts).length = 16 * ((23 + s.RawSrcAddr.length + 15) / 16) := by
  simp [macInputSpec]
  omega

lemma macInputSpec_ne_nil (pktID : PktID) (s : SCION) (ts : Nat) :
    macInputSpec pktID s ts ≠ [] := by
  simp [macInputSpec]

/-- The central characterization of `prepareMacInput`: on a non-nil header
with a source address of at most 25 bytes and an adequate buffer, it
overwrites the first `inputLength` buffer bytes with the spec 4.3 layout
and leaves the rest untouched. -/
lemma prepareMacInput_eq (pktID : PktID) (s : SCION) (ts : Nat) (buf : List Nat)
    (hl : s.RawSrcAddr.length ≤ 25) (hb : 48 ≤ buf.length) :
    prepareMacInput pktID (some s) ts buf =
      .ok (16 * ((23 + s.RawSrcAddr.length + 15) / 16),
        macInputSpec pktID s ts ++
          buf.drop (16 * ((23 + s.RawSrcAddr.length + 15) / 16))) := by
  have e0 : writeBytes buf 0 [s.SrcAddrLen % 256] = [s.SrcAddrLen % 256] ++ buf.drop 1 := by
    simp [writeBytes]
  have e1 : writeBytes ([s.SrcAddrLen % 256] ++ buf.drop 1) 1 (be32 ts)
      = [s.SrcAddrLen % 256] ++ be32 ts ++ buf.drop 5 := by
    rw [writeBytes_append [s.SrcAddrLen % 256] (buf.drop 1) (be32 ts) 1 (by simp)]
    simp
  have e2 : writeBytes ([s.SrcAddrLen % 256] ++ be32 ts ++ buf.drop 5) 5 pktID.serializeTo
      = [s.SrcAddrLen % 256] ++ be32 ts ++ pktID.serializeTo ++ buf.drop 13 := by
    rw [writeBytes_append ([s.SrcAddrLen % 256] ++ be32 ts) (buf.drop 5)
      pktID.serializeTo 5 (by simp)]
    simp
  have e3 : writeBytes ([s.SrcAddrLen % 256] ++ be32 ts ++ pktID.serializeTo ++ buf.drop 13)
        13 (be64 (s.SrcIA % 2 ^ 64))
      = [s.SrcAddrLen % 256] ++ be32 ts ++ pktID.serializeTo ++ be64 (s.SrcIA % 2 ^ 64)
          ++ buf.drop 21 := by
    rw [writeBytes_append ([s.SrcAddrLen % 256] ++ be32 ts ++ pktID.serializeTo)
      (buf.drop 13) (be64 (s.SrcIA % 2 ^ 64)) 13 (by simp)]
    simp
  have e4a : s.RawSrcAddr.take
      (([s.SrcAddrLen % 256] ++ be32 ts ++ pktID.serializeTo ++ be64 (s.SrcIA % 2 ^ 64)
        ++ buf.drop 21).length - 21) = s.RawSrcAddr := by
    apply List.take_of_length_le
    simp only [List.length_append, List.length_cons, List.length_nil, List.length_drop,
      length_be32, length_be64, length_serializeTo]
    omega
  have e4 : writeBytes ([s.SrcAddrLen % 256] ++ be32 ts ++ pktID.serializeTo
        ++ be64 (s.SrcIA % 2 ^ 64) ++ buf.drop 21) 21
        (s.RawSrcAddr.take (([s.SrcAddrLen % 256] ++ be32 ts ++ pktID.serializeTo
          ++ be64 (s.SrcIA % 2 ^ 64) ++ buf.drop 21).length - 21))
      = [s.SrcAddrLen % 256] ++ be32 ts ++ pktID.serializeTo ++ be64 (s.SrcIA % 2 ^ 64)
          ++ s.RawSrcAddr ++ buf.drop (21 + s.RawSrcAddr.length) := by
    rw [e4a, writeBytes_append ([s.SrcAddrLen % 256] ++ be32 ts ++ pktID.serializeTo
      ++ be64 (s.SrcIA % 2 ^ 64)) (buf.drop 21) s.RawSrcAddr 21 (by simp)]
    simp
  have e5 : writeBytes ([s.SrcAddrLen % 256] ++ be32 ts ++ pktID.serializeTo
        ++ be64 (s.SrcIA % 2 ^ 64) ++ s.RawSrcAddr ++ buf.drop (21 + s.RawSrcAddr.length))
        (21 + s.RawSrcAddr.length) (be16 (s.PayloadLen % 2 ^ 16))
      = [s.SrcAddrLen % 256] ++ be32 ts ++ pktID.serializeTo ++ be64 (s.SrcIA % 2 ^ 64)
          ++ s.RawSrcAddr ++ be16 (s.PayloadLen % 2 ^ 16)
          ++ buf.drop (21 + s.RawSrcAddr.length + 2) := by
    rw [writeBytes_append ([s.SrcAddrLen % 256] ++ be32 ts ++ pktID.serializeTo
      ++ be64 (s.SrcIA % 2 ^ 64) ++ s.RawSrcAddr) (buf.drop (21 + s.RawSrcAddr.length))
      (be16 (s.PayloadLen % 2 ^ 16)) (21 + s.RawSrcAddr.length) (by simp <;> omega)]
    simp
  have epad : zeroInitVector.take
        (16 * ((23 + s.RawSrcAddr.length + 15) / 16) - (23 + s.RawSrcAddr.length))
      = List.replicate
        (16 * ((23 + s.RawSrcAddr.length + 15) / 16) - (23 + s.RawSrcAddr.length)) 0 := by
    rw [zeroInitVector, List.take_replicate, Nat.min_eq_left (by omega)]
  have e6 : writeBytes ([s.SrcAddrLen % 256] ++ be32 ts ++ pktID.serializeTo
        ++ be64 (s.SrcIA % 2 ^ 64) ++ s.RawSrcAddr ++ be16 (s.PayloadLen % 2 ^ 16)
        ++ buf.drop (21 + s.RawSrcAddr.length + 2)) (23 + s.RawSrcAddr.length)
        (zeroInitVector.take
          (16 * ((23 + s.RawSrcAddr.length + 15) / 16) - (23 + s.RawSrcAddr.length)))
      = [s.SrcAddrLen % 256] ++ be32 ts ++ pktID.serializeTo ++ be64 (s.SrcIA % 2 ^ 64)
          ++ s.RawSrcAddr ++ be16 (s.PayloadLen % 2 ^ 16)
          ++ List.replicate
            (16 * ((23 + s.RawSrcAddr.length + 15) / 16) - (23 + s.RawSrcAddr.length)) 0
          ++ buf.drop (21 + s.RawSrcAddr.length + 2
              + (16 * ((23 + s.RawSrcAddr.length + 15) / 16) - (23 + s.RawSrcAddr.length))) := by
    rw [epad, writeBytes_append ([s.SrcAddrLen % 256] ++ be32 ts ++ pktID.serializeTo
      ++ be64 (s.SrcIA % 2 ^ 64) ++ s.RawSrcAddr ++ be16 (s.PayloadLen % 2 ^ 16))
      (buf.drop (21 + s.RawSrcAddr.length + 2)) _ (23 + s.RawSrcAddr.length)
      (by simp <;> omega)]
    simp
  simp only [prepareMacInput]
  rw [e0, e1, e2, e3, e4, e5]
  rw [show (21 + s.RawSrcAddr.length + 2) = 23 + s.RawSrcAddr.length by omega] at e6 ⊢
  rw [e6]
  rw [show 23 + s.RawSrcAddr.length
      + (16 * ((23 + s.RawSrcAddr.length + 15) / 16) - (23 + s.RawSrcAddr.length))
      = 16 * ((23 + s.RawSrcAddr.length + 15) / 16) by omega]
  simp only [macInputSpec]

lemma length_xor16 (a b : List Nat) : (xor16 a b).length = 16 := by
  simp [xor16]

lemma length_aesRounds (rks : List (List Nat)) (st : List Nat) (h : st.length = 16) :
    (aesRounds rks st).length = 16 := by
  induction rks generalizing st with
  | nil => simpa [aesRounds] using h
  | cons rk rks ih =>
    cases rks with
    | nil => simp [aesRounds, length_xor16]
    | cons rk' rks' => exact ih _ (length_xor16 _ _)

lemma length_aesEncryptBlock (rks : List (List Nat)) (b : List Nat) :
    (aesEncryptBlock rks b).length = 16 :=
  length_aesRounds _ _ (length_xor16 _ _)

lemma cbcEncryptChunks_blocks (rks : List (List Nat)) (iv : List Nat)
    (bs : List (List Nat)) : ∀ c ∈ cbcEncryptChunks rks iv bs, c.length = 16 := by
  induction bs generalizing iv with
  | nil => simp [cbcEncryptChunks]
  | cons b bs ih =>
    intro c hc
    simp only [cbcEncryptChunks, List.mem_cons] at hc
    rcases hc with h | h
    · subst h; exact length_aesEncryptBlock _ _
    · exact ih _ _ h

lemma cbcEncryptChunks_ne_nil (rks : List (List Nat)) (iv : List Nat) (bs : List (List Nat)) (h : bs ≠ []) :
    cbcEncryptChunks rks iv bs ≠ [] := by
  cases bs with
  | nil => exact absurd rfl h
  | cons b bs => simp [cbcEncryptChunks]

lemma chunksOf_ne_nil (n : Nat) (l : List Nat) (h1 : l ≠ []) (h2 : n ≠ 0) :
    chunksOf n l ≠ [] := by
  rw [chunksOf]
  simp [h1, h2]

lemma getLastD_mem (bs : List (List Nat)) (d : List Nat) (h : bs ≠ []) :
    bs.getLastD d ∈ bs := by
  induction bs generalizing d with
  | nil => exact absurd rfl h
  | cons b bs ih =>
    cases bs with
    | nil => simp
    | cons b' bs' =>
      rw [List.getLastD_cons]
      exact List.mem_cons_of_mem _ (ih b (by simp))

/-- Dropping all but the final 16 bytes of the concatenation of nonempty
16-byte blocks yields the final block. -/
lemma flatten_drop_last (bs : List (List Nat)) (hne : bs ≠ [])
    (hlen : ∀ c ∈ bs, c.length = 16) :
    bs.flatten.drop (bs.flatten.length - 16) = bs.getLastD [] := by
  induction bs with
  | nil => exact absurd rfl hne
  | cons b bs ih =>
    cases bs with
    | nil =>
      have hb : b.length = 16 := hlen b (by simp)
      simp [hb]
    | cons b' bs' =>
      have hb : b.length = 16 := hlen b (by simp)
      have hb' : b'.length = 16 := hlen b' (by simp)
      have hJ : 16 ≤ (List.flatten (b' :: bs')).length := by
        simp [hb']
      rw [List.flatten_cons]
      rw [show (b ++ (b' :: bs').flatten).length - 16
          = b.length + ((b' :: bs').flatten.length - 16) from by
        simp [hb]; omega]
      rw [List.drop_append]
      rw [ih (by simp) (fun c hc => hlen c (List.mem_cons_of_mem _ hc))]
      simp [List.getLastD_cons]

/-- The central characterization of `CalcMac`: for any key the AES cipher
accepts and any source address of at most 25 bytes (so that the encoding
fits the 48-byte buffer), `CalcMac` succeeds with the spec 4.4 value,
independently of the scratch buffer. -/
lemma calcMac_eq (auth : List Nat) (pktID : PktID) (s : SCION) (ts : Nat) (buf : List Nat)
    (hk : auth.length = 16 ∨ auth.length = 24 ∨ auth.length = 32)
    (hl : s.RawSrcAddr.length ≤ 25) :
    CalcMac auth pktID (some s) ts buf = .ok (calcMacSpec auth pktID s ts) := by
  have hbuf : 48 ≤
      (if buf.length < MACBufferSize then List.replicate MACBufferSize 0 else buf).length := by
    split
    · simp [MACBufferSize]
    · next h => simp only [MACBufferSize] at h; omega
  have hinit : initEpicMac auth = .ok (expandKey auth) := by
    simp [initEpicMac, aesNewCipher, if_pos hk]
  simp only [CalcMac]
  rw [hinit, prepareMacInput_eq pktID s ts _ hl hbuf]
  dsimp only
  rw [List.take_left' (length_macInputSpec pktID s ts)]
  simp only [cryptBlocks, calcMacSpec, zeroInitVector]
  rw [flatten_drop_last _
    (cbcEncryptChunks_ne_nil _ _ _
      (chunksOf_ne_nil 16 _ (macInputSpec_ne_nil pktID s ts) (by omega)))
    (cbcEncryptChunks_blocks _ _ _)]

/-- The spec-side authenticator always has exactly 4 bytes. -/
lemma length_calcMacSpec (auth : List Nat) (pktID : PktID) (s : SCION) (ts : Nat) :
    (calcMacSpec auth pktID s ts).length = 4 := by
  simp only [calcMacSpec]
  have hne : chunksOf 16 (macInputSpec pktID s ts) ≠ [] :=
    chunksOf_ne_nil 16 _ (macInputSpec_ne_nil pktID s ts) (by omega)
  have hmem := getLastD_mem
    (cbcEncryptChunks (expandKey auth) (List.replicate 16 0)
      (chunksOf 16 (macInputSpec pktID s ts))) []
    (cbcEncryptChunks_ne_nil _ _ _ hne)
  have h16 := cbcEncryptChunks_blocks (expandKey auth) (List.replicate 16 0)
    (chunksOf 16 (macInputSpec pktID s ts)) _ hmem
  rw [List.length_take, h16]
  omega

lemma constantTimeCompare_self (x : List Nat) : ConstantTimeCompare x x = 1 := by
  simp [ConstantTimeCompare]

/-! ### Claim theorems -/

/-- C1: Round-trip correctness: for every 16-byte key, every packet
identifier, every non-nil header whose raw source address has length 4, 8,
12 or 16, every relative timestamp and any scratch buffers, `VerifyHVF`
applied to the authenticator returned by `CalcMac` on the same inputs
returns success. -/
theorem claim_C1_roundtrip (auth : List Nat) (pktID : PktID) (s : SCION) (ts : Nat)
    (buf1 buf2 : List Nat) (hk : auth.length = 16)
    (hl : s.RawSrcAddr.length = 4 ∨ s.RawSrcAddr.length = 8 ∨
      s.RawSrcAddr.length = 12 ∨ s.RawSrcAddr.length = 16) :
    ∃ mac, CalcMac auth pktID (some s) ts buf1 = .ok mac ∧
      VerifyHVF auth pktID (some s) ts mac buf2 = .ok () := by
  have hl25 : s.RawSrcAddr.length ≤ 25 := by rcases hl with h | h | h | h <;> omega
  have h1 := calcMac_eq auth pktID s ts buf1 (Or.inl hk) hl25
  have h2 := calcMac_eq auth pktID s ts buf2 (Or.inl hk) hl25
  refine ⟨_, h1, ?_⟩
  simp only [VerifyHVF, AuthLen]
  rw [if_neg (by simp [hk]), h2]
  dsimp only
  rw [constantTimeCompare_self]
  simp

/-- C1 witness: a concrete instance of the round trip. -/
theorem claim_C1_roundtrip_witness :
    ∃ mac, CalcMac (List.replicate 16 0) ⟨1, 42⟩
        (some ⟨0, [10, 0, 0, 1], 7, 100⟩) 5 [] = .ok mac ∧
      VerifyHVF (List.replicate 16 0) ⟨1, 42⟩
        (some ⟨0, [10, 0, 0, 1], 7, 100⟩) 5 mac [3, 3] = .ok () :=
  claim_C1_roundtrip (List.replicate 16 0) ⟨1, 42⟩ ⟨0, [10, 0, 0, 1], 7, 100⟩ 5
    [] [3, 3] (by decide) (by decide)

/-- C2: MAC input encoding: for every non-nil header whose raw source
address has length N in \x7b4, 8, 12, 16\x7d and adequate buffer,
`prepareMacInput` writes, contiguously and big-endian: 1 byte
source-address-length class, 4 bytes relative timestamp, 8 bytes serialized
packet identifier, 8 bytes source endpoint identity, N bytes raw source
address, 2 bytes payload length, then zero bytes up to the total length
16 * ceil((23 + N) / 16), and returns exactly that length. -/
theorem claim_C2_encoding (pktID : PktID) (s : SCION) (ts : Nat) (buf : List Nat)
    (hl : s.RawSrcAddr.length = 4 ∨ s.RawSrcAddr.length = 8 ∨
      s.RawSrcAddr.length = 12 ∨ s.RawSrcAddr.length = 16)
    (hb : 48 ≤ buf.length) :
    ∃ b, prepareMacInput pktID (some s) ts buf
        = .ok (16 * ((23 + s.RawSrcAddr.length + 15) / 16), b)
      ∧ b.take (16 * ((23 + s.RawSrcAddr.length + 15) / 16))
        = [s.SrcAddrLen % 256] ++ be32 ts ++ pktID.serializeTo ++ be64 (s.SrcIA % 2 ^ 64)
          ++ s.RawSrcAddr ++ be16 (s.PayloadLen % 2 ^ 16)
          ++ List.replicate
            (16 * ((23 + s.RawSrcAddr.length + 15) / 16) - (23 + s.RawSrcAddr.length)) 0 := by
  have hl25 : s.RawSrcAddr.length ≤ 25 := by rcases hl with h | h | h | h <;> omega
  refine ⟨_, prepareMacInput_eq pktID s ts buf hl25 hb, ?_⟩
  rw [List.take_left' (length_macInputSpec pktID s ts)]
  simp only [macInputSpec]

/-- C2 witness: a concrete instance of the encoding equation. -/
theorem claim_C2_encoding_witness :
    ∃ b, prepareMacInput ⟨1, 42⟩ (some ⟨0, [10, 0, 0, 1], 7, 100⟩) 5 (List.replicate 48 9)
        = .ok (16 * ((23 + (SCION.mk 0 [10, 0, 0, 1] 7 100).RawSrcAddr.length + 15) / 16), b)
      ∧ b.take (16 * ((23 + (SCION.mk 0 [10, 0, 0, 1] 7 100).RawSrcAddr.length + 15) / 16))
        = [(SCION.mk 0 [10, 0, 0, 1] 7 100).SrcAddrLen % 256] ++ be32 5
          ++ (PktID.mk 1 42).serializeTo
          ++ be64 ((SCION.mk 0 [10, 0, 0, 1] 7 100).SrcIA % 2 ^ 64)
          ++ (SCION.mk 0 [10, 0, 0, 1] 7 100).RawSrcAddr
          ++ be16 ((SCION.mk 0 [10, 0, 0, 1] 7 100).PayloadLen % 2 ^ 16)
          ++ List.replicate
            (16 * ((23 + (SCION.mk 0 [10, 0, 0, 1] 7 100).RawSrcAddr.length + 15) / 16)
              - (23 + (SCION.mk 0 [10, 0, 0, 1] 7 100).RawSrcAddr.length)) 0 :=
  claim_C2_encoding ⟨1, 42⟩ ⟨0, [10, 0, 0, 1], 7, 100⟩ 5 (List.replicate 48 9)
    (by decide) (by decide)

/-- C3: MAC compute as truncated CBC-MAC: for every 16-byte key, non-nil
valid header and timestamp, `CalcMac` returns the first 4 bytes of the
final ciphertext block obtained by CBC-encrypting the block-aligned spec
4.3 encoding under the key with an all-zero initialization vector
(`calcMacSpec`). -/
theorem claim_C3_cbcMac (auth : List Nat) (pktID : PktID) (s : SCION) (ts : Nat)
    (buf : List Nat) (hk : auth.length = 16)
    (hl : s.RawSrcAddr.length = 4 ∨ s.RawSrcAddr.length = 8 ∨
      s.RawSrcAddr.length = 12 ∨ s.RawSrcAddr.length = 16) :
    CalcMac auth pktID (some s) ts buf = .ok (calcMacSpec auth pktID s ts) :=
  calcMac_eq auth pktID s ts buf (Or.inl hk)
    (by rcases hl with h | h | h | h <;> omega)

/-- C3 witness: a concrete instance. -/
theorem claim_C3_cbcMac_witness :
    CalcMac (List.replicate 16 0) ⟨1, 42⟩ (some ⟨0, [10, 0, 0, 1], 7, 100⟩) 5 []
      = .ok (calcMacSpec (List.replicate 16 0) ⟨1, 42⟩ ⟨0, [10, 0, 0, 1], 7, 100⟩ 5) :=
  claim_C3_cbcMac (List.replicate 16 0) ⟨1, 42⟩ ⟨0, [10, 0, 0, 1], 7, 100⟩ 5 []
    (by decide) (by decide)

/-- C4: Timestamp verify acceptance window: with
senderInstant = timestamp + (epicTS + 1) * 21µs, `VerifyTimestamp` fails
with TimestampInFuture (carrying the excess delta) iff
senderInstant > now + 1s; otherwise it fails with TimestampExpired
(carrying the excess delta) iff now > senderInstant + 2s + 1s; otherwise it
succeeds. -/
theorem claim_C4_verifyTimestamp (timestamp : Int) (epicTS : Nat) (now : Int) :
    VerifyTimestamp timestamp epicTS now =
      if timestamp + ((epicTS : Int) + 1) * TimestampResolution > now + MaxClockSkew then
        .error (.timestampInFuture
          (timestamp + ((epicTS : Int) + 1) * TimestampResolution - (now + MaxClockSkew)))
      else if now > timestamp + ((epicTS : Int) + 1) * TimestampResolution
          + MaxPacketLifetime + MaxClockSkew then
        .error (.timestampExpired
          (now - (timestamp + ((epicTS : Int) + 1) * TimestampResolution
            + MaxPacketLifetime + MaxClockSkew)))
      else .ok () := rfl

/-- C5: Timestamp create contract: `CreateTimestamp` fails with
InvalidTimestampOrder iff input is strictly after now; otherwise, with
e = floor((now - input) / 21µs) - 1 clamped below at 0, it fails with
TimestampRangeExceeded iff e ≥ 2^32, and otherwise returns e; in
particular CreateTimestamp t t returns 0. -/
theorem claim_C5_createTimestamp (input now : Int) :
    CreateTimestamp input now =
      (if input > now then .error .invalidTimestampOrder
       else if max ((now - input) / TimestampResolution - 1) 0 ≥ 2 ^ 32 then
         .error .timestampRangeExceeded
       else .ok (max ((now - input) / TimestampResolution - 1) 0).toNat)
    ∧ CreateTimestamp input input = .ok 0 := by
  constructor
  · have hmax : ∀ e : Int, (if e < 0 then 0 else e) = max e 0 := fun e => by
      rcases lt_or_le e 0 with h | h
      · simp [h, max_eq_right h.le]
      · simp [not_lt.mpr h, max_eq_left h]
    simp only [CreateTimestamp, hmax]
  · norm_num [CreateTimestamp, TimestampResolution]

/-- C6: HVF verify input validation: `VerifyHVF` fails with InvalidInput
when the header is absent or the key is not exactly 16 bytes long; the
definition returns this error before invoking `CalcMac`, so it holds for
every key and header, including ones on which the MAC computation itself
would behave differently. -/
theorem claim_C6_invalidInput (auth : List Nat) (pktID : PktID) (s : Option SCION)
    (ts : Nat) (hvf buf : List Nat) (h : s = none ∨ auth.length ≠ 16) :
    VerifyHVF auth pktID s ts hvf buf = .error .invalidInput := by
  simp only [VerifyHVF, AuthLen]
  rw [if_pos h]

/-- C6 witness: absent header. -/
theorem claim_C6_invalidInput_witness :
    VerifyHVF (List.replicate 16 0) ⟨1, 42⟩ none 5 [1, 2, 3, 4] [] = .error .invalidInput :=
  claim_C6_invalidInput (List.replicate 16 0) ⟨1, 42⟩ none 5 [1, 2, 3, 4] []
    (Or.inl rfl)

/-- C7 counterexample: the claim "for every key that is not exactly 16
bytes, CalcMac fails with KeyInitError" is false: a 24-byte key is accepted
by the AES cipher (AES-192) and `CalcMac` succeeds on it. -/
theorem claim_C7_counterexample :
    (List.replicate 24 7 : List Nat).length ≠ 16 ∧
    ∃ mac, CalcMac (List.replicate 24 7) ⟨1, 42⟩ (some ⟨0, [10, 0, 0, 1], 7, 100⟩) 5 []
      = .ok mac :=
  ⟨by decide, ⟨_, rfl⟩⟩

/-- C7 amended: for every key whose length is not 16, 24 or 32 bytes,
`CalcMac` fails with KeyInitError and returns no authenticator; for every
16-byte key, cipher initialization succeeds. -/
theorem claim_C7_amended (auth : List Nat) (pktID : PktID) (s : Option SCION) (ts : Nat)
    (buf key : List Nat) (h16 : auth.length ≠ 16) (h24 : auth.length ≠ 24)
    (h32 : auth.length ≠ 32) (hkey : key.length = 16) :
    CalcMac auth pktID s ts buf = .error .keyInitError ∧
      ∃ rks, initEpicMac key = .ok rks := by
  constructor
  · simp [CalcMac, initEpicMac, aesNewCipher, h16, h24, h32]
  · refine ⟨expandKey key, ?_⟩
    simp [initEpicMac, aesNewCipher, hkey]

/-- C7 amended witness: a 9-byte key is rejected, a 16-byte key accepted. -/
theorem claim_C7_amended_witness :
    CalcMac (List.replicate 9 1) ⟨1, 42⟩ none 5 [] = .error .keyInitError ∧
      ∃ rks, initEpicMac (List.replicate 16 0) = .ok rks :=
  claim_C7_amended (List.replicate 9 1) ⟨1, 42⟩ none 5 [] (List.replicate 16 0)
    (by decide) (by decide) (by decide) (by decide)

/-- C8: Packet counter round trip: for coreID in [0, 255],
`CoreFromPktCounter (PktCounterFromCore coreID c)` recovers coreID and the
low 24 bits of c; the pack operation silently drops the bits of c above
bit 23 (it equals packing c % 2^24, with no error reported), and for
c < 2^24 the round trip is exact. -/
theorem claim_C8_pktCounter (coreID coreCounter : Nat) (hid : coreID < 256) :
    CoreFromPktCounter (PktCounterFromCore coreID coreCounter)
        = (coreID, coreCounter % 2 ^ 24) ∧
      PktCounterFromCore coreID coreCounter
        = PktCounterFromCore coreID (coreCounter % 2 ^ 24) ∧
      (coreCounter < 2 ^ 24 →
        CoreFromPktCounter (PktCounterFromCore coreID coreCounter)
          = (coreID, coreCounter)) := by
  have hmask : ∀ n : Nat, n &&& 0xFFFFFF = n % 2 ^ 24 := fun n => by
    rw [show (0xFFFFFF : Nat) = 2 ^ 24 - 1 from by norm_num,
      Nat.and_pow_two_sub_one_eq_mod]
  have hval : ∀ c : Nat,
      PktCounterFromCore coreID c = coreID * 2 ^ 24 + c % 2 ^ 24 := fun c => by
    have hr : c % 2 ^ 24 < 2 ^ 24 := Nat.mod_lt _ (by norm_num)
    unfold PktCounterFromCore
    rw [Nat.mod_eq_of_lt hid, hmask, Nat.shiftLeft_eq, Nat.mul_comm coreID (2 ^ 24),
      ← Nat.mul_add_lt_is_or hr coreID, Nat.mul_comm (2 ^ 24) coreID,
      Nat.mod_eq_of_lt (by omega)]
  have hfirst : CoreFromPktCounter (PktCounterFromCore coreID coreCounter)
      = (coreID, coreCounter % 2 ^ 24) := by
    have hr : coreCounter % 2 ^ 24 < 2 ^ 24 := Nat.mod_lt _ (by norm_num)
    rw [hval]
    unfold CoreFromPktCounter
    rw [Nat.shiftRight_eq_div_pow, hmask,
      Nat.mod_eq_of_lt (show coreID * 2 ^ 24 + coreCounter % 2 ^ 24 < 2 ^ 32 by omega)]
    simp only [Prod.mk.injEq]
    constructor <;> omega
  refine ⟨hfirst, ?_, ?_⟩
  · rw [hval, hval]
    omega
  · intro hc
    rw [hfirst, Nat.mod_eq_of_lt hc]

/-- C8 witness: coreID 7 with an overflowing counter. -/
theorem claim_C8_pktCounter_witness :
    CoreFromPktCounter (PktCounterFromCore 7 (2 ^ 24 + 5)) = (7, (2 ^ 24 + 5) % 2 ^ 24) ∧
      PktCounterFromCore 7 (2 ^ 24 + 5) = PktCounterFromCore 7 ((2 ^ 24 + 5) % 2 ^ 24) ∧
      (2 ^ 24 + 5 < 2 ^ 24 →
        CoreFromPktCounter (PktCounterFromCore 7 (2 ^ 24 + 5)) = (7, 2 ^ 24 + 5)) :=
  claim_C8_pktCounter 7 (2 ^ 24 + 5) (by decide)

/-- C9: the authenticator returned by `CalcMac` is independent of the
scratch buffer argument: for a fixed key, packet identifier, valid header
and timestamp, any two buffers (including nil or undersized ones) give the
same result, because every byte of the encoded input up to the returned
length, padding included, is overwritten before encryption. -/
theorem claim_C9_bufferIndependence (auth : List Nat) (pktID : PktID) (s : SCION)
    (ts : Nat) (buf1 buf2 : List Nat)
    (hl : s.RawSrcAddr.length = 4 ∨ s.RawSrcAddr.length = 8 ∨
      s.RawSrcAddr.length = 12 ∨ s.RawSrcAddr.length = 16) :
    CalcMac auth pktID (some s) ts buf1 = CalcMac auth pktID (some s) ts buf2 := by
  have hl25 : s.RawSrcAddr.length ≤ 25 := by rcases hl with h | h | h | h <;> omega
  by_cases hk : auth.length = 16 ∨ auth.length = 24 ∨ auth.length = 32
  · rw [calcMac_eq auth pktID s ts buf1 hk hl25, calcMac_eq auth pktID s ts buf2 hk hl25]
  · rcases not_or.mp hk with ⟨h16, hk'⟩
    rcases not_or.mp hk' with ⟨h24, h32⟩
    have hinit : initEpicMac auth = .error .keyInitError := by
      simp [initEpicMac, aesNewCipher, h16, h24, h32]
    simp [CalcMac, hinit]

/-- C9 witness: a nil buffer, a stale oversized buffer. -/
theorem claim_C9_bufferIndependence_witness :
    CalcMac (List.replicate 16 0) ⟨1, 42⟩ (some ⟨0, [10, 0, 0, 1], 7, 100⟩) 5 []
      = CalcMac (List.replicate 16 0) ⟨1, 42⟩ (some ⟨0, [10, 0, 0, 1], 7, 100⟩) 5
        (List.replicate 60 255) :=
  claim_C9_bufferIndependence (List.replicate 16 0) ⟨1, 42⟩ ⟨0, [10, 0, 0, 1], 7, 100⟩ 5
    [] (List.replicate 60 255) (by decide)

/-- C10: for every structurally valid call (non-nil valid header, 16-byte
key), if the claimed hvf slice does not have length exactly 4, `VerifyHVF`
never succeeds: the recomputed authenticator has exactly 4 bytes and the
constant-time comparison reports inequality for slices of different
lengths, so the MacMismatch error is returned. -/
theorem claim_C10_lengthMismatch (auth : List Nat) (pktID : PktID) (s : SCION)
    (ts : Nat) (hvf buf : List Nat) (hk : auth.length = 16)
    (hl : s.RawSrcAddr.length = 4 ∨ s.RawSrcAddr.length = 8 ∨
      s.RawSrcAddr.length = 12 ∨ s.RawSrcAddr.length = 16)
    (hh : hvf.length ≠ 4) :
    VerifyHVF auth pktID (some s) ts hvf buf
      = .error (.macMismatch hvf (calcMacSpec auth pktID s ts) auth) := by
  have hl25 : s.RawSrcAddr.length ≤ 25 := by rcases hl with h | h | h | h <;> omega
  have hcmp : ConstantTimeCompare hvf (calcMacSpec auth pktID s ts) = 0 := by
    unfold ConstantTimeCompare
    rw [if_pos]
    rw [length_calcMacSpec]
    exact hh
  simp only [VerifyHVF, AuthLen]
  rw [if_neg (by simp [hk]), calcMac_eq auth pktID s ts buf (Or.inl hk) hl25]
  dsimp only
  rw [hcmp]
  simp

/-- C10 witness: an empty claimed hvf is rejected with MacMismatch. -/
theorem claim_C10_lengthMismatch_witness :
    VerifyHVF (List.replicate 16 0) ⟨1, 42⟩ (some ⟨0, [10, 0, 0, 1], 7, 100⟩) 5 [] []
      = .error (.macMismatch []
        (calcMacSpec (List.replicate 16 0) ⟨1, 42⟩ ⟨0, [10, 0, 0, 1], 7, 100⟩ 5)
        (List.replicate 16 0)) :=
  claim_C10_lengthMismatch (List.replicate 16 0) ⟨1, 42⟩ ⟨0, [10, 0, 0, 1], 7, 100⟩ 5
    [] [] (by decide) (by decide) (by decide)

end Epic
